import Mathlib

/-!
# ytr: the interactive session and its queue mutations

A shallow embedding of `main.go`: the entry record, the session model and
its `Update` transition, the add pipeline (`processAddURL`, `runAddVideo`),
title lookup, short-code generation, and the load/save pair that re-sorts
the collection.

Everything the Go code obtains from outside the file is an explicit input:

* the random source is a stream `Nat → Nat`; `rand.Intn n` is a draw taken
  modulo `n`;
* `time.Now().Unix()`, the result of `url.Parse`, the outcome of the HTTP
  title lookup and the error returned by the file write are fields of the
  records handed to the functions;
* `sort.Slice` is represented by its contract (`SliceSorter`): the output
  is a permutation of the input in which no later element is `less` than
  an earlier one.  Stability is not assumed, as in Go;
* the two widgets (`list.Model`, `textinput.Model`) are abstract types with
  the operations `Update` calls on them (`Widgets`).

The only unbounded loop, the retry loop of `generateShortID`, takes a
bound on the number of attempts; `none` means that the bound was reached.
-/

namespace Ytr

/-! ## Constants and the entry record -/

/-- Length of a short code (`shortIDLength`). -/
def shortIDLength : Nat := 6

/-- Alphabet of short codes (`charset`). -/
def charset : String := "abcdefghijklmnopqrstuvwxyzABCDEFGHIJKLMNOPQRSTUVWXYZ0123456789"

/-- One queued video (`VideoEntry`). -/
structure VideoEntry where
  ID : String
  ShortID : String
  URL : String
  VideoTitle : String
  Timestamp : Int
deriving DecidableEq, Repr

/-- Results of fallible calls are compared by value. -/
instance {ε α : Type} [DecidableEq ε] [DecidableEq α] : DecidableEq (Except ε α)
  | .ok a, .ok b =>
    if h : a = b then isTrue (by rw [h]) else isFalse (by intro h2; cases h2; exact h rfl)
  | .error a, .error b =>
    if h : a = b then isTrue (by rw [h]) else isFalse (by intro h2; cases h2; exact h rfl)
  | .ok _, .error _ => isFalse (by intro h; cases h)
  | .error _, .ok _ => isFalse (by intro h; cases h)

/-! ## sort.Slice and saveDB / loadDB -/

/-- The comparison handed to `sort.Slice` in `saveDB` and `loadDB`:
`entries[i].Timestamp > entries[j].Timestamp`. -/
def less (a b : VideoEntry) : Prop := a.Timestamp > b.Timestamp

instance (a b : VideoEntry) : Decidable (less a b) :=
  inferInstanceAs (Decidable (a.Timestamp > b.Timestamp))

/-- A slice is in `sort.Slice` order when no element is `less` than one
that precedes it. -/
def SortedByLess (l : List VideoEntry) : Prop :=
  l.Pairwise (fun a b => ¬ less b a)

instance (l : List VideoEntry) : Decidable (SortedByLess l) :=
  inferInstanceAs (Decidable (l.Pairwise (fun (a b : VideoEntry) => ¬ less b a)))

/-- Strictly descending timestamps: every entry is newer than the entry
after it. -/
def StrictlyDescending (l : List VideoEntry) : Prop :=
  l.Chain' (fun a b => a.Timestamp > b.Timestamp)

/-- Contract of `sort.Slice` with the comparison `less`: the slice is
permuted in place into `less` order.  Which permutation is chosen among
entries with equal timestamps is left to the implementation. -/
structure SliceSorter where
  sort : List VideoEntry → List VideoEntry
  perm : ∀ l, (sort l).Perm l
  sorted : ∀ l, SortedByLess (sort l)

/-- Order used by the reference sorter: newer or equally old first. -/
def newerOrEqual (a b : VideoEntry) : Prop := a.Timestamp ≥ b.Timestamp

instance : DecidableRel newerOrEqual := fun a b =>
  inferInstanceAs (Decidable (a.Timestamp ≥ b.Timestamp))

instance : IsTotal VideoEntry newerOrEqual :=
  ⟨fun a b => by unfold newerOrEqual; exact le_total _ _⟩

instance : IsTrans VideoEntry newerOrEqual :=
  ⟨fun a b c hab hbc => by unfold newerOrEqual at *; exact le_trans hbc hab⟩

/-- A sorter meeting the contract: insertion sort, which is what
`sort.Slice` runs on slices of at most twelve elements. -/
def insertionSorter : SliceSorter where
  sort := List.insertionSort newerOrEqual
  perm := fun l => List.perm_insertionSort newerOrEqual l
  sorted := fun l => by
    have h := List.sorted_insertionSort newerOrEqual l
    unfold SortedByLess
    refine List.Pairwise.imp ?_ h
    intro a b hab
    unfold newerOrEqual at hab
    unfold less
    exact not_lt.mpr hab

/-- State of the store file as `loadDB` finds it. -/
inductive StoreFile where
  | missing
  | openFails (err : String)
  | holds (decoded : Except String (List VideoEntry))

/-- The file system as seen by `loadDB`. -/
structure Disk where
  mkdirErr : Option String
  file : StoreFile

/-- Embedding of `loadDB`: create the directory, open and decode the file,
sort newest first. -/
def loadDB (s : SliceSorter) (d : Disk) : Except String (List VideoEntry) :=
  match d.mkdirErr with
  | some err => .error err
  | none =>
    match d.file with
    | .missing => .ok []
    | .openFails err => .error err
    | .holds (.error err) => .error err
    | .holds (.ok entries) => .ok (s.sort entries)

/-- Embedding of `saveDB`: the slice is sorted in place first, then the
file is written.  The result is the slice as the caller sees it afterwards
together with the returned error (`writeErr` is the error of `os.Create` or
of the encoder, if any). -/
def saveDB (s : SliceSorter) (writeErr : Option String) (entries : List VideoEntry) :
    List VideoEntry × Option String :=
  (s.sort entries, writeErr)

/-! ## Short codes -/

/-- Byte `charset[i]`. -/
def charsetAt (i : Nat) : Char := charset.toList.getD i 'a'

/-- One pass of the inner loop of `generateShortID`: `shortIDLength` bytes,
byte `i` being `charset[rand.Intn(len(charset))]` with the draw at stream
position `pos + i`. -/
def drawShortID (rng : Nat → Nat) (pos : Nat) : String :=
  String.mk ((List.range shortIDLength).map
    (fun i => charsetAt (rng (pos + i) % charset.length)))

/-- The retry loop of `generateShortID` over the set `existing`, at most
`attempts` passes. -/
def generateShortIDLoop (existing : List String) (rng : Nat → Nat) :
    Nat → Nat → Option String
  | 0, _ => none
  | attempts + 1, pos =>
    let shortID := drawShortID rng pos
    if shortID ∈ existing then
      generateShortIDLoop existing rng attempts (pos + shortIDLength)
    else
      some shortID

/-- Embedding of `generateShortID`: collect the short codes in use, then
draw until a code not in use comes up. -/
def generateShortID (attempts : Nat) (entries : List VideoEntry) (rng : Nat → Nat) :
    Option String :=
  generateShortIDLoop (entries.map (fun e => e.ShortID)) rng attempts 0

/-! ## Identifier extraction and title lookup -/

/-- The fields of a parsed `url.URL` that `extractYoutubeID` reads; `Query`
holds the decoded query parameters in order. -/
structure URL where
  Host : String
  Path : String
  Query : List (String × String)
deriving DecidableEq, Repr

/-- `strings.Contains` on character lists. -/
def containsChars : List Char → List Char → Bool
  | [], sub => sub.isEmpty
  | c :: s, sub => sub.isPrefixOf (c :: s) || containsChars s sub

/-- `strings.Split` with a one-character separator, on character lists. -/
def splitChars (sep : Char) : List Char → List (List Char)
  | [] => [[]]
  | c :: cs =>
    if c = sep then [] :: splitChars sep cs
    else
      match splitChars sep cs with
      | [] => [[c]]
      | p :: ps => (c :: p) :: ps

/-- `strings.TrimPrefix`. -/
def trimLeading (s p : String) : String :=
  if p.toList.isPrefixOf s.toList then String.mk (s.toList.drop p.toList.length) else s

/-- `u.Query().Get(key)`: the first value stored under `key`, else the
empty string. -/
def queryGet (q : List (String × String)) (key : String) : String :=
  match q.find? (fun kv => kv.1 == key) with
  | some kv => kv.2
  | none => ""

/-- Embedding of `extractYoutubeID`; `urlParse` stands for `url.Parse`. -/
def extractYoutubeID (urlParse : String → Except String URL) (rawURL : String) :
    Except String String :=
  match urlParse rawURL with
  | .error err => .error err
  | .ok u =>
    if u.Host = "youtu.be" then
      .ok (trimLeading u.Path "/")
    else if containsChars u.Host.toList "youtube.com".toList then
      if u.Path = "/watch" then
        .ok (queryGet u.Query "v")
      else if "/embed/".toList.isPrefixOf u.Path.toList then
        match (splitChars '/' u.Path.toList).get? 2 with
        | some part => .ok (String.mk part)
        | none => .error "invalid YouTube URL"
      else
        .error "invalid YouTube URL"
    else
      .error "invalid YouTube URL"

/-- What `json.Unmarshal` makes of a response body for the target
`struct { Title string }`: an error, or success, in which case `title` is
the string stored under the key `title` if the document has one. -/
inductive Decoded where
  | invalid (err : String)
  | object (title : Option String)
deriving DecidableEq, Repr

/-- Outcome of the single oEmbed request of `getYoutubeTitle`. -/
inductive TitleResponse where
  | getFails (err : String)
  | readFails (err : String)
  | body (decoded : Decoded)
deriving DecidableEq, Repr

/-- The address `getYoutubeTitle` requests for a video identifier. -/
def oembedURL (videoID : String) : String :=
  "https://www.youtube.com/oembed?url=https://www.youtube.com/watch?v=" ++ videoID
    ++ "&format=json"

/-- Embedding of `getYoutubeTitle`; `httpGet` answers the request.  A
field missing from the decoded document leaves `result.Title` at its zero
value, the empty string. -/
def getYoutubeTitle (httpGet : String → TitleResponse) (videoID : String) :
    Except String String :=
  match httpGet (oembedURL videoID) with
  | .getFails err => .error err
  | .readFails err => .error err
  | .body (.invalid err) => .error err
  | .body (.object title) => .ok (title.getD "")

/-! ## Messages and the add pipeline -/

/-- The messages `Update` distinguishes.  `key s` is a `tea.KeyMsg` whose
`String()` is `s`; `addVideo` is `addVideoMsg`, its `err` being `none` for
a nil error. -/
inductive Msg where
  | key (s : String)
  | windowSize (width height : Int)
  | addVideo (entry : VideoEntry) (err : Option String)
  | other (tag : Nat)
deriving DecidableEq, Repr

/-- What one run of the add pipeline receives from outside. -/
structure World where
  httpGet : String → TitleResponse
  rng : Nat → Nat
  now : Int

/-- The title given to a new entry: the fetched one, or the raw URL when
`getYoutubeTitle` returns an error. -/
def titleOrURL (httpGet : String → TitleResponse) (videoID rawURL : String) : String :=
  match getYoutubeTitle httpGet videoID with
  | .ok title => title
  | .error _ => rawURL

/-- The duplicate scan shared by `processAddURL` and `runAddVideo`: the
first entry whose `ID` is `videoID` or whose `URL` is `rawURL`. -/
def findDuplicate (entries : List VideoEntry) (videoID rawURL : String) :
    Option VideoEntry :=
  entries.find? (fun e => e.ID == videoID || e.URL == rawURL)

/-- Embedding of the command returned by `processAddURL`.  The closure
holds a pointer to the copy of the model that `Update` worked on when
`enter` was handled; `entries` is the list it ranges over when it runs,
that is the slice of that copy (its length frozen at `enter`), which need
not be the queue of the session at that moment.  `none`: the short-code
loop did not finish within `attempts` passes. -/
def processAddURL (urlParse : String → Except String URL) (attempts : Nat)
    (entries : List VideoEntry) (rawURL : String) (w : World) : Option Msg :=
  let blank : VideoEntry := ⟨"", "", "", "", 0⟩
  match extractYoutubeID urlParse rawURL with
  | .error err => some (.addVideo blank (some err))
  | .ok videoID =>
    match findDuplicate entries videoID rawURL with
    | some e => some (.addVideo blank (some ("duplicate entry: " ++ e.VideoTitle)))
    | none =>
      let title := titleOrURL w.httpGet videoID rawURL
      match generateShortID attempts entries w.rng with
      | none => none
      | some shortID =>
        some (.addVideo
          { ID := videoID, ShortID := shortID, URL := rawURL, VideoTitle := title,
            Timestamp := w.now } none)

/-! ## The command-line paths -/

/-- How a command-line path ends: `exit` is `os.Exit` after printing
`output`; `done` is a normal return, with the URL handed to `openURL` (if
any) and the slice handed to `saveDB`, as sorted by it. -/
inductive CLIOutcome where
  | exit (code : Nat) (output : String)
  | done (output : String) (opened : Option String) (saved : List VideoEntry)
deriving DecidableEq, Repr

/-- `append(entries[:idx], entries[idx+1:]...)`. -/
def removeAt (entries : List VideoEntry) (idx : Nat) : List VideoEntry :=
  entries.take idx ++ entries.drop (idx + 1)

/-- Embedding of `runRandomVideo`; `draw` is the raw random draw behind
`rand.Intn`. -/
def runRandomVideo (s : SliceSorter) (d : Disk) (writeErr : Option String) (draw : Nat) :
    CLIOutcome :=
  match loadDB s d with
  | .error _ => .exit 1 "No videos available."
  | .ok entries =>
    if h : entries.length = 0 then .exit 1 "No videos available."
    else
      let idx : Fin entries.length :=
        ⟨draw % entries.length, Nat.mod_lt _ (Nat.pos_of_ne_zero h)⟩
      let entry := entries.get idx
      .done "" (some entry.URL) (saveDB s writeErr (removeAt entries idx.val)).1

/-- Embedding of `runAddVideo`.  `none`: the short-code loop did not finish
within `attempts` passes. -/
def runAddVideo (s : SliceSorter) (urlParse : String → Except String URL) (d : Disk)
    (writeErr : Option String) (attempts : Nat) (rawURL : String) (w : World) :
    Option CLIOutcome :=
  match extractYoutubeID urlParse rawURL with
  | .error err => some (.exit 1 ("Invalid YouTube URL: " ++ err))
  | .ok videoID =>
    match loadDB s d with
    | .error err => some (.exit 1 ("Error loading database: " ++ err))
    | .ok entries =>
      match findDuplicate entries videoID rawURL with
      | some e => some (.exit 1 ("Duplicate entry: " ++ e.VideoTitle))
      | none =>
        let title := titleOrURL w.httpGet videoID rawURL
        match generateShortID attempts entries w.rng with
        | none => none
        | some shortID =>
          let entry : VideoEntry :=
            { ID := videoID, ShortID := shortID, URL := rawURL, VideoTitle := title,
              Timestamp := w.now }
          some (.done ("Added video: " ++ title) none
            (saveDB s writeErr (entries ++ [entry])).1)

/-! ## The session model -/

/-- A command handed back to the runtime: `nil`, `tea.Quit`, a command
produced by a widget, or the closure built by `processAddURL` (with the
entries of the model copy it captured, as they are when `enter` is handled,
and the URL). -/
inductive Cmd where
  | nil
  | quit
  | widget (tag : Nat)
  | processAddURL (entries : List VideoEntry) (rawURL : String)
deriving DecidableEq, Repr

/-- The operations `Update` calls on the list widget (`L`) and on the text
input (`T`), and the frame size of `docStyle`. -/
structure Widgets (L T : Type) where
  filtering : L → Bool
  selectedItem : L → Option VideoEntry
  setItems : L → List VideoEntry → L
  setSize : L → Int → Int → L
  listUpdate : L → Msg → L × Cmd
  focus : T → T × Cmd
  value : T → String
  reset : T → T
  inputUpdate : T → Msg → T × Cmd
  frameH : Int
  frameV : Int

/-- The session state (`Model`).  `err` is the notice; `state` is 0 while
browsing and 1 while capturing input. -/
structure Model (L T : Type) where
  entries : List VideoEntry
  list : L
  textInput : T
  state : Int
  selectedItem : Option VideoEntry
  err : Option String
  loading : Bool
deriving DecidableEq, Repr

/-- What one call of `Update` receives from outside: the sorter behind
`saveDB`, the error its file write returns, and the raw random draw. -/
structure Env where
  sorter : SliceSorter
  writeErr : Option String
  draw : Nat

/-- Result of one call of `Update`: the returned model and command, the URL
handed to `openURL` (if any) and the slice handed to `saveDB`, as sorted by
it (if it was called). -/
structure Outcome (L T : Type) where
  model : Model L T
  cmd : Cmd
  opened : Option String
  saved : Option (List VideoEntry)
deriving DecidableEq, Repr

/-- The filter loop of the delete and select cases: keep the entries whose
short code differs from `shortID`. -/
def removeByShortID (entries : List VideoEntry) (shortID : String) : List VideoEntry :=
  entries.filter (fun e => e.ShortID != shortID)

/-- The tail of `Update`: hand the message to the widget of the current
mode. -/
def delegate {L T : Type} (W : Widgets L T) (m : Model L T) (msg : Msg) : Outcome L T :=
  if m.state = 0 then
    let r := W.listUpdate m.list msg
    ⟨{ m with list := r.1 }, r.2, none, none⟩
  else if m.state = 1 then
    let r := W.inputUpdate m.textInput msg
    ⟨{ m with textInput := r.1 }, r.2, none, none⟩
  else
    ⟨m, .nil, none, none⟩

/-- The shared body of the delete and select cases once an item is
selected; `opened` is the URL the select case has handed to `openURL`
before.  `make([]VideoEntry, 0, len(m.entries)-1)` panics on an empty
slice (negative capacity): `none`. -/
def removeSelected {L T : Type} (W : Widgets L T) (env : Env) (m : Model L T)
    (selected : VideoEntry) (opened : Option String) : Option (Outcome L T) :=
  if m.entries.length = 0 then none
  else
    let newEntries := removeByShortID m.entries selected.ShortID
    let saved := (saveDB env.sorter env.writeErr newEntries).1
    some ⟨{ m with entries := saved, list := W.setItems m.list saved }, .nil, opened,
      some saved⟩

/-- Embedding of `Model.Update`.  `none` is a run-time panic. -/
def Update {L T : Type} (W : Widgets L T) (env : Env) (m : Model L T) (msg : Msg) :
    Option (Outcome L T) :=
  match msg with
  | .key k =>
    match m.err with
    | some _ => some ⟨{ m with err := none }, .nil, none, none⟩
    | none =>
      if W.filtering m.list then
        let r := W.listUpdate m.list msg
        some ⟨{ m with list := r.1 }, r.2, none, none⟩
      else if m.state = 0 then
        if k = "ctrl+c" ∨ k = "q" then
          some ⟨m, .quit, none, none⟩
        else if k = "a" then
          let r := W.focus m.textInput
          some ⟨{ m with state := 1, textInput := r.1 }, r.2, none, none⟩
        else if k = "d" then
          match W.selectedItem m.list with
          | some selected => removeSelected W env m selected none
          | none => some ⟨m, .nil, none, none⟩
        else if k = "r" then
          if h : m.entries.length = 0 then
            some ⟨{ m with err := some "no videos available" }, .nil, none, none⟩
          else
            let idx : Fin m.entries.length :=
              ⟨env.draw % m.entries.length, Nat.mod_lt _ (Nat.pos_of_ne_zero h)⟩
            let entry := m.entries.get idx
            let saved := (saveDB env.sorter env.writeErr (removeAt m.entries idx.val)).1
            some ⟨{ m with entries := saved, list := W.setItems m.list saved }, .nil,
              some entry.URL, some saved⟩
        else if k = "enter" then
          match W.selectedItem m.list with
          | some selected => removeSelected W env m selected (some selected.URL)
          | none => some ⟨m, .nil, none, none⟩
        else
          some (delegate W m msg)
      else if m.state = 1 then
        if k = "esc" then
          some ⟨{ m with state := 0 }, .nil, none, none⟩
        else if k = "enter" then
          let url := W.value m.textInput
          let m1 := { m with textInput := W.reset m.textInput, state := 0 }
          some ⟨m1, .processAddURL m1.entries url, none, none⟩
        else
          some (delegate W m msg)
      else
        some (delegate W m msg)
  | .windowSize width height =>
    some (delegate W
      { m with list := W.setSize m.list (width - W.frameH) (height - W.frameV) } msg)
  | .addVideo entry err =>
    match err with
    | some e => some ⟨{ m with err := some e }, .nil, none, none⟩
    | none =>
      let saved := (saveDB env.sorter env.writeErr (m.entries ++ [entry])).1
      some ⟨{ m with entries := saved, list := W.setItems m.list saved }, .nil, none,
        some saved⟩
  | .other _ => some (delegate W m msg)

/-- One add in a session where nothing else happens in between: the slice
captured at `enter` is the queue itself, the command of `processAddURL`
runs against it, then `Update` handles the message it produced. -/
def addStep {L T : Type} (W : Widgets L T) (urlParse : String → Except String URL)
    (attempts : Nat) (m : Model L T) (req : Env × String × World) : Option (Model L T) :=
  match processAddURL urlParse attempts m.entries req.2.1 req.2.2 with
  | none => none
  | some msg =>
    match Update W req.1 m msg with
    | none => none
    | some out => some out.model

/-- A sequence of adds, one after the other. -/
def runAdds {L T : Type} (W : Widgets L T) (urlParse : String → Except String URL)
    (attempts : Nat) : Model L T → List (Env × String × World) → Option (Model L T)
  | m, [] => some m
  | m, req :: rest =>
    match addStep W urlParse attempts m req with
    | none => none
    | some m1 => runAdds W urlParse attempts m1 rest

/-! ## Concrete instances for worked examples -/

/-- A plain list widget: the items, the cursor and the filtering flag.
The selected item is the one under the cursor. -/
structure PlainList where
  items : List VideoEntry
  cursor : Nat
  filtering : Bool
deriving DecidableEq, Repr

/-- Widget operations over `PlainList` and a text input that is just its
buffer. -/
def plainWidgets : Widgets PlainList String where
  filtering := fun l => l.filtering
  selectedItem := fun l => l.items.get? l.cursor
  setItems := fun l items => { l with items := items }
  setSize := fun l _ _ => l
  listUpdate := fun l _ => (l, .nil)
  focus := fun t => (t, .widget 0)
  value := fun t => t
  reset := fun _ => ""
  inputUpdate := fun t _ => (t, .nil)
  frameH := 4
  frameV := 2

/-- A browsing session over `entries` with the cursor on the first item. -/
def browsing (entries : List VideoEntry) : Model PlainList String :=
  { entries := entries, list := ⟨entries, 0, false⟩, textInput := "", state := 0,
    selectedItem := none, err := none, loading := false }

/-- An environment whose file write succeeds. -/
def quietEnv (draw : Nat) : Env := ⟨insertionSorter, none, draw⟩

/-- An environment whose file write fails. -/
def failingEnv (draw : Nat) : Env := ⟨insertionSorter, some "permission denied", draw⟩

/-- Sample entries. -/
def entryA : VideoEntry := ⟨"idA", "aaaaaa", "https://youtu.be/idA", "A", 100⟩

/-- A second sample entry, added in the same second as `entryA`. -/
def entryB : VideoEntry := ⟨"idB", "bbbbbb", "https://youtu.be/idB", "B", 100⟩

/-- A third sample entry, newer than the other two. -/
def entryC : VideoEntry := ⟨"idC", "cccccc", "https://youtu.be/idC", "C", 300⟩

/-- An entry that repeats the short code of `entryA`. -/
def entryA2 : VideoEntry := ⟨"idD", "aaaaaa", "https://youtu.be/idD", "D", 50⟩

/-- The answers of `url.Parse` on the addresses used in the worked
examples (any other address is answered with an error here). -/
def sampleParse (rawURL : String) : Except String URL :=
  if rawURL = "https://youtu.be/abc" then .ok ⟨"youtu.be", "/abc", []⟩
  else if rawURL = "https://www.youtube.com/watch?v=abc" then
    .ok ⟨"www.youtube.com", "/watch", [("v", "abc")]⟩
  else if rawURL = "https://youtu.be/xyz" then .ok ⟨"youtu.be", "/xyz", []⟩
  else .error "parse error"

/-- A world in which the title request is answered by `resp`, every random
draw is `draw` and the clock reads `now`. -/
def constWorld (resp : TitleResponse) (draw : Nat) (now : Int) : World :=
  ⟨fun _ => resp, fun _ => draw, now⟩

/-- A browsing session over `entries`, no notice, with the list in
filtering mode. -/
def filteringSession (entries : List VideoEntry) : Model PlainList String :=
  { entries := entries, list := ⟨entries, 0, true⟩, textInput := "", state := 0,
    selectedItem := none, err := none, loading := false }

/-- A session in input-capturing mode with `buffer` typed so far. -/
def capturing (entries : List VideoEntry) (buffer : String) : Model PlainList String :=
  { entries := entries, list := ⟨entries, 0, false⟩, textInput := buffer, state := 1,
    selectedItem := none, err := none, loading := false }

/-- The messages that reach a `saveDB` call: a successful add result, and
in browsing mode (no notice, list not filtering, queue not empty) the keys
`r`, and `d` or `enter` with an item selected. -/
def Mutates {L T : Type} (W : Widgets L T) (m : Model L T) : Msg → Prop
  | .addVideo _ err => err = none
  | .key k =>
    m.err = none ∧ W.filtering m.list = false ∧ m.state = 0 ∧ m.entries ≠ [] ∧
      (k = "r" ∨ ((k = "d" ∨ k = "enter") ∧ W.selectedItem m.list ≠ none))
  | _ => False

/-- The collection a mutating message hands to `saveDB`: the entries with
the new one appended, with the drawn index cut out, or with the selected
short code filtered out. -/
def mutatedEntries {L T : Type} (W : Widgets L T) (env : Env) (m : Model L T) :
    Msg → List VideoEntry
  | .addVideo entry _ => m.entries ++ [entry]
  | .key k =>
    if k = "r" then removeAt m.entries (env.draw % m.entries.length)
    else
      match W.selectedItem m.list with
      | some selected => removeByShortID m.entries selected.ShortID
      | none => m.entries
  | _ => m.entries

/-- The entry produced by a first submission of `https://youtu.be/abc`. -/
def firstAbc : VideoEntry :=
  ⟨"abc", "aaaaaa", "https://youtu.be/abc", "https://youtu.be/abc", 100⟩

/-- The entry produced by a second submission of the same address whose
command also ran against the still empty queue. -/
def secondAbc : VideoEntry :=
  ⟨"abc", "bbbbbb", "https://youtu.be/abc", "https://youtu.be/abc", 101⟩

/-- Two add requests for the same video under two addresses: the short
link and the watch page. -/
def clashingAdds : List (Env × String × World) :=
  [(quietEnv 0, "https://youtu.be/abc", constWorld (.getFails "offline") 0 100),
   (quietEnv 0, "https://www.youtube.com/watch?v=abc",
     constWorld (.getFails "offline") 1 200)]

/-- Two add requests for two videos; the second one first draws the short
code already given out and has to draw again. -/
def distinctAdds : List (Env × String × World) :=
  [(quietEnv 0, "https://youtu.be/abc", constWorld (.getFails "offline") 0 100),
   (quietEnv 0, "https://youtu.be/xyz",
     ⟨fun _ => .getFails "offline", fun n => if n < 6 then 0 else 1, 200⟩)]

/-- Two add requests for two videos whose random source keeps drawing the
same short code. -/
def stuckAdds : List (Env × String × World) :=
  [(quietEnv 0, "https://youtu.be/abc", constWorld (.getFails "offline") 0 100),
   (quietEnv 0, "https://youtu.be/xyz", constWorld (.getFails "offline") 0 200)]

/-- The condition on the random source under which a sequence of adds runs
to the end with at most `attempts` passes of the short-code loop per add:
for every add there is a pass `t < attempts` that draws a code not in
`used`, every earlier pass having drawn a code in `used`; that code then
counts as used for the adds that follow. -/
def FreshDraws (attempts : Nat) : List String → List (Env × String × World) → Prop
  | _, [] => True
  | used, req :: rest =>
    ∃ t, t < attempts ∧
      drawShortID req.2.2.rng (shortIDLength * t) ∉ used ∧
      (∀ s, s < t → drawShortID req.2.2.rng (shortIDLength * s) ∈ used) ∧
      FreshDraws attempts (drawShortID req.2.2.rng (shortIDLength * t) :: used) rest

/-! ## Short codes: properties -/

theorem charset_length : charset.length = 62 := by decide

theorem charset_alphanumeric : ∀ c ∈ charset.toList, c.isAlphanum = true := by decide

theorem charsetAt_mem (r : Nat) : charsetAt (r % charset.length) ∈ charset.toList := by
  have h : r % charset.length < charset.toList.length := by
    have : charset.toList.length = charset.length := rfl
    rw [this]
    exact Nat.mod_lt _ (by rw [charset_length]; decide)
  unfold charsetAt
  rw [List.getD_eq_getElem _ _ h]
  exact List.getElem_mem h

theorem drawShortID_length (rng : Nat → Nat) (pos : Nat) :
    (drawShortID rng pos).length = shortIDLength := by
  simp only [drawShortID, String.length, List.length_map, List.length_range]

theorem drawShortID_chars (rng : Nat → Nat) (pos : Nat) :
    ∀ c ∈ (drawShortID rng pos).toList, c ∈ charset.toList := by
  intro c hc
  simp only [drawShortID, String.toList, List.mem_map] at hc
  obtain ⟨i, _, rfl⟩ := hc
  exact charsetAt_mem _

theorem generateShortIDLoop_some (existing : List String) (rng : Nat → Nat) :
    ∀ (attempts pos : Nat) (id : String),
      generateShortIDLoop existing rng attempts pos = some id →
      (∃ p, id = drawShortID rng p) ∧ id ∉ existing := by
  intro attempts
  induction attempts with
  | zero => intro pos id h; simp [generateShortIDLoop] at h
  | succ n ih =>
    intro pos id h
    simp only [generateShortIDLoop] at h
    split at h
    · exact ih _ _ h
    · rename_i hfree
      injection h with h
      subst h
      exact ⟨⟨pos, rfl⟩, hfree⟩

/-- The loop returns as soon as one of the passes it is allowed draws a
code that is not in use. -/
theorem generateShortIDLoop_returns (existing : List String) (rng : Nat → Nat) :
    ∀ (attempts pos t : Nat), t < attempts →
      drawShortID rng (pos + shortIDLength * t) ∉ existing →
      ∃ id, generateShortIDLoop existing rng attempts pos = some id := by
  intro attempts
  induction attempts with
  | zero => intro pos t ht; omega
  | succ n ih =>
    intro pos t ht hfree
    simp only [generateShortIDLoop]
    split
    · cases t with
      | zero => rename_i hused; simp at hfree; exact absurd hused hfree
      | succ t =>
        apply ih (pos + shortIDLength) t (by omega)
        have : pos + shortIDLength + shortIDLength * t = pos + shortIDLength * (t + 1) := by
          ring
        rw [this]; exact hfree
    · exact ⟨_, rfl⟩

theorem generateShortID_unused (attempts : Nat) (entries : List VideoEntry)
    (rng : Nat → Nat) (id : String) (h : generateShortID attempts entries rng = some id) :
    id ∉ entries.map (fun e => e.ShortID) :=
  (generateShortIDLoop_some _ rng attempts 0 id h).2

/-- C9: whenever `generateShortID` returns, the returned code has exactly
six characters, each of them one of the 62 letters and digits of `charset`,
and it differs from the `ShortID` of every existing entry. -/
theorem generateShortID_fresh (attempts : Nat) (entries : List VideoEntry)
    (rng : Nat → Nat) (id : String)
    (h : generateShortID attempts entries rng = some id) :
    id.length = 6 ∧
    (∀ c ∈ id.toList, c ∈ charset.toList ∧ c.isAlphanum = true) ∧
    charset.toList.length = 62 ∧
    (∀ e ∈ entries, e.ShortID ≠ id) := by
  obtain ⟨⟨p, hp⟩, hfree⟩ := generateShortIDLoop_some _ rng attempts 0 id h
  refine ⟨?_, ?_, by decide, ?_⟩
  · rw [hp]; exact drawShortID_length rng p
  · intro c hc
    rw [hp] at hc
    have hmem := drawShortID_chars rng p c hc
    exact ⟨hmem, charset_alphanumeric c hmem⟩
  · intro e he heq
    apply hfree
    exact List.mem_map.mpr ⟨e, he, heq⟩

/-- C9 at a concrete input: the first pass draws the code in use by
`entryA`, the second pass returns a fresh one. -/
theorem generateShortID_fresh_witness :
    generateShortID 3 [entryA] (fun n => if n < 6 then 0 else 1) = some "bbbbbb" ∧
    ("bbbbbb".length = 6 ∧
     (∀ c ∈ "bbbbbb".toList, c ∈ charset.toList ∧ c.isAlphanum = true) ∧
     charset.toList.length = 62 ∧
     (∀ e ∈ [entryA], e.ShortID ≠ "bbbbbb")) :=
  ⟨by decide,
   generateShortID_fresh 3 [entryA] (fun n => if n < 6 then 0 else 1) "bbbbbb" (by decide)⟩

/-! ## Notices and input capture -/

/-- C7: with a notice showing, any key press only clears the notice: the
returned model is the old one with `err` reset, no command is returned,
nothing is opened and nothing is saved. -/
theorem notice_swallows_key {L T : Type} (W : Widgets L T) (env : Env) (m : Model L T)
    (k : String) (h : m.err ≠ none) :
    Update W env m (.key k) = some ⟨{ m with err := none }, .nil, none, none⟩ := by
  unfold Update
  cases herr : m.err with
  | none => exact absurd herr h
  | some e => rfl

/-- C7 at a concrete input: `q` pressed over a notice does not quit. -/
theorem notice_swallows_key_witness :
    ({ browsing [entryA] with err := some "duplicate entry: A" } :
        Model PlainList String).err ≠ none ∧
    Update plainWidgets (quietEnv 0) { browsing [entryA] with err := some "duplicate entry: A" }
        (.key "q") =
      some ⟨browsing [entryA], .nil, none, none⟩ :=
  ⟨by decide,
   notice_swallows_key plainWidgets (quietEnv 0)
     { browsing [entryA] with err := some "duplicate entry: A" } "q" (by decide)⟩

/-- The cancel key in input-capturing mode changes the mode and nothing
else. -/
theorem esc_returns_to_browsing {L T : Type} (W : Widgets L T) (env : Env) (m : Model L T)
    (hstate : m.state = 1) (herr : m.err = none) (hfilter : W.filtering m.list = false) :
    Update W env m (.key "esc") = some ⟨{ m with state := 0 }, .nil, none, none⟩ := by
  unfold Update
  simp [herr, hfilter, hstate]

/-- C10 at the failing input: after typing an address and pressing `esc`
the session is browsing again and the queue is untouched, but the input
buffer still holds the typed text. -/
theorem esc_keeps_input_buffer :
    Update plainWidgets (quietEnv 0) (capturing [entryA] "https://youtu.be/abc") (.key "esc")
      = some ⟨{ capturing [entryA] "https://youtu.be/abc" with state := 0 }, .nil, none, none⟩
    ∧ plainWidgets.value
        ({ capturing [entryA] "https://youtu.be/abc" with state := 0 } :
          Model PlainList String).textInput = "https://youtu.be/abc"
    ∧ plainWidgets.value (plainWidgets.reset "https://youtu.be/abc") = "" := by
  decide

/-! ## Sorting facts -/

theorem saveDB_fst (s : SliceSorter) (writeErr : Option String) (l : List VideoEntry) :
    (saveDB s writeErr l).1 = s.sort l := rfl

theorem saveDB_snd (s : SliceSorter) (writeErr : Option String) (l : List VideoEntry) :
    (saveDB s writeErr l).2 = writeErr := rfl

theorem sort_length (s : SliceSorter) (l : List VideoEntry) :
    (s.sort l).length = l.length := (s.perm l).length_eq

theorem sort_descending (s : SliceSorter) (l : List VideoEntry) :
    (s.sort l).Pairwise (fun a b => a.Timestamp ≥ b.Timestamp) := by
  refine List.Pairwise.imp ?_ (s.sorted l)
  intro a b h
  unfold less at h
  exact not_lt.mp h

theorem strictlyDescending_pairwise {l : List VideoEntry} (h : StrictlyDescending l) :
    l.Pairwise (fun a b => a.Timestamp > b.Timestamp) := by
  unfold StrictlyDescending at h
  haveI : IsTrans VideoEntry (fun a b => a.Timestamp > b.Timestamp) :=
    ⟨fun a b c hab hbc => lt_trans hbc hab⟩
  exact List.chain'_iff_pairwise.mp h

/-- A slice whose timestamps are strictly descending is left as it is by
every sorter. -/
theorem sort_eq_self_of_strict (s : SliceSorter) {l : List VideoEntry}
    (h : StrictlyDescending l) : s.sort l = l := by
  have hp := strictlyDescending_pairwise h
  have hinj : ∀ a ∈ l, ∀ b ∈ l, a.Timestamp = b.Timestamp → a = b := by
    intro a ha b hb hab
    by_contra hne
    have hsym : l.Pairwise (fun a b => a.Timestamp ≠ b.Timestamp) :=
      hp.imp (fun h => ne_of_gt h)
    have := hsym.forall (fun x y hxy => hxy.symm) ha hb hne
    exact this hab
  have h1 : (s.sort l).Sorted newerOrEqual := sort_descending s l
  have h2 : l.Sorted newerOrEqual := hp.imp (fun h => le_of_lt h)
  refine List.Perm.eq_of_sorted ?_ h1 h2 (s.perm l)
  intro a b ha hb hab hba
  have ha2 : a ∈ l := (s.perm l).subset ha
  exact hinj a ha2 b hb (le_antisymm hba hab)

theorem removeAt_eq_eraseIdx (l : List VideoEntry) (i : Nat) :
    removeAt l i = l.eraseIdx i := by
  unfold removeAt
  exact (List.eraseIdx_eq_take_drop_succ l i).symm

/-! ## Mutations: ordering and notices -/

/-- What `Update` returns on a mutating message: the entries are replaced
by the sorted mutated collection, the list widget is handed the same
slice, and every other field of the model is kept. -/
theorem update_of_mutates {L T : Type} (W : Widgets L T) (env : Env) (m : Model L T)
    (msg : Msg) (h : Mutates W m msg) :
    ∃ opened, Update W env m msg =
      some ⟨{ m with
              entries := env.sorter.sort (mutatedEntries W env m msg),
              list := W.setItems m.list (env.sorter.sort (mutatedEntries W env m msg)) },
            .nil, opened, some (env.sorter.sort (mutatedEntries W env m msg))⟩ := by
  cases msg with
  | addVideo entry err =>
    simp only [Mutates] at h
    subst h
    exact ⟨none, rfl⟩
  | key k =>
    obtain ⟨herr, hfilter, hstate, hne, hk⟩ := h
    have hlen : m.entries.length ≠ 0 := fun h0 => hne (List.length_eq_zero.mp h0)
    rcases hk with hr | ⟨hk, hsel⟩
    · subst hr
      refine ⟨some (m.entries.get ⟨env.draw % m.entries.length,
        Nat.mod_lt _ (Nat.pos_of_ne_zero hlen)⟩).URL, ?_⟩
      unfold Update
      simp [herr, hfilter, hstate, hlen, mutatedEntries, saveDB]
    · cases hs : W.selectedItem m.list with
      | none => exact absurd hs hsel
      | some selected =>
        rcases hk with hd | he
        · subst hd
          refine ⟨none, ?_⟩
          unfold Update
          simp [herr, hfilter, hstate, hlen, mutatedEntries, saveDB, hs, removeSelected]
        · subst he
          refine ⟨some selected.URL, ?_⟩
          unfold Update
          simp [herr, hfilter, hstate, hlen, mutatedEntries, saveDB, hs, removeSelected]
  | windowSize w h' => exact absurd h (by simp [Mutates])
  | other t => exact absurd h (by simp [Mutates])


/-- C2, as the code falsifies it: two entries added in the same second
stay in the queue with equal timestamps, so the queue after the add is not
strictly descending. -/
theorem add_same_second_not_strict :
    (Update plainWidgets (quietEnv 0) (browsing [entryA]) (.addVideo entryB none)).map
        (fun out => out.model.entries) = some [entryA, entryB] ∧
    entryA.Timestamp = entryB.Timestamp ∧
    ¬ StrictlyDescending [entryA, entryB] :=
  ⟨by decide, by decide, fun h => absurd (List.chain'_pair.mp h) (by decide)⟩

/-- C2, amended: after every message that mutates the queue (a successful
add result, `d` or `enter` on a selected item, `r` on a non-empty queue)
`Update` returns a model whose entries are sorted descending by
`Timestamp`, equal timestamps allowed: every entry is at least as new as
each entry after it. -/
theorem mutation_leaves_sorted {L T : Type} (W : Widgets L T) (env : Env) (m : Model L T)
    (msg : Msg) (h : Mutates W m msg) :
    ∃ out, Update W env m msg = some out ∧
      out.model.entries.Pairwise (fun a b => a.Timestamp ≥ b.Timestamp) := by
  obtain ⟨opened, hout⟩ := update_of_mutates W env m msg h
  exact ⟨_, hout, sort_descending env.sorter _⟩

/-- C2, amended, at a concrete input: a newer entry added to a queue of two
ends up in front. -/
theorem mutation_leaves_sorted_witness :
    Mutates plainWidgets (browsing [entryA, entryB]) (.addVideo entryC none) ∧
    ∃ out, Update plainWidgets (quietEnv 0) (browsing [entryA, entryB])
        (.addVideo entryC none) = some out ∧
      out.model.entries.Pairwise (fun a b => a.Timestamp ≥ b.Timestamp) :=
  ⟨rfl, mutation_leaves_sorted plainWidgets (quietEnv 0) (browsing [entryA, entryB])
    (.addVideo entryC none) rfl⟩

/-- C6, as the code falsifies it: the file write fails while an add result
is handled, and the returned model carries no notice. -/
theorem failed_save_raises_no_notice :
    (saveDB (failingEnv 0).sorter (failingEnv 0).writeErr ([entryA] ++ [entryC])).2
        = some "permission denied" ∧
    (Update plainWidgets (failingEnv 0) (browsing [entryA]) (.addVideo entryC none)).map
        (fun out => (out.model.err, out.model.entries)) = some (none, [entryC, entryA]) := by
  decide

/-- C6, amended: when `saveDB` returns an error during a queue mutation
handled by `Update`, the error is dropped: the notice of the returned model
is what it was before the message, and `m.entries` holds the mutated
collection, as sorted by `saveDB`. -/
theorem failed_save_is_dropped {L T : Type} (W : Widgets L T) (sorter : SliceSorter)
    (draw : Nat) (e : String) (m : Model L T) (msg : Msg)
    (h : Mutates W m msg) :
    (saveDB sorter (some e) (mutatedEntries W ⟨sorter, some e, draw⟩ m msg)).2 = some e ∧
    ∃ out, Update W ⟨sorter, some e, draw⟩ m msg = some out ∧
      out.model.err = m.err ∧
      out.model.entries =
        (saveDB sorter (some e) (mutatedEntries W ⟨sorter, some e, draw⟩ m msg)).1 ∧
      out.model.entries.Perm (mutatedEntries W ⟨sorter, some e, draw⟩ m msg) ∧
      out.saved = some out.model.entries := by
  obtain ⟨opened, hout⟩ := update_of_mutates W ⟨sorter, some e, draw⟩ m msg h
  exact ⟨rfl, _, hout, rfl, rfl, sorter.perm _, rfl⟩

/-- C6, amended, at a concrete input: deleting the selected entry while the
file write fails. -/
theorem failed_save_is_dropped_witness :
    Mutates plainWidgets (browsing [entryC, entryA]) (.key "d") ∧
    ∃ out, Update plainWidgets (failingEnv 0) (browsing [entryC, entryA]) (.key "d")
        = some out ∧
      out.model.err = none ∧
      out.model.entries.Perm [entryA] ∧
      out.saved = some out.model.entries :=
  have hm : Mutates plainWidgets (browsing [entryC, entryA]) (.key "d") :=
    ⟨rfl, rfl, rfl, by decide, Or.inr ⟨Or.inl rfl, by decide⟩⟩
  ⟨hm,
   match (failed_save_is_dropped plainWidgets insertionSorter 0 "permission denied"
      (browsing [entryC, entryA]) (.key "d") hm).2 with
   | ⟨out, h1, h2, _, h4, h5⟩ => ⟨out, h1, h2, h4, h5⟩⟩

/-! ## Duplicates -/

theorem findDuplicate_some {entries : List VideoEntry} {videoID rawURL : String}
    (h : ∃ e ∈ entries, e.ID = videoID ∨ e.URL = rawURL) :
    ∃ e ∈ entries, (e.ID = videoID ∨ e.URL = rawURL) ∧
      findDuplicate entries videoID rawURL = some e := by
  unfold findDuplicate
  cases hf : entries.find? (fun e => e.ID == videoID || e.URL == rawURL) with
  | none =>
    obtain ⟨e, he, hdup⟩ := h
    have := List.find?_eq_none.mp hf e he
    simp at this
    rcases hdup with h1 | h2
    · exact absurd h1 this.1
    · exact absurd h2 this.2
  | some e =>
    have hp := List.find?_some hf
    have hm := List.mem_of_find?_eq_some hf
    simp at hp
    exact ⟨e, hm, hp, rfl⟩

theorem findDuplicate_none {entries : List VideoEntry} {videoID rawURL : String}
    (h : ∀ e ∈ entries, e.ID ≠ videoID ∧ e.URL ≠ rawURL) :
    findDuplicate entries videoID rawURL = none := by
  unfold findDuplicate
  apply List.find?_eq_none.mpr
  intro e he
  have := h e he
  simp [this.1, this.2]

/-- C1, as the code falsifies it: the same address is submitted twice and
both commands run against the still empty queue, so both yield a successful
result.  When the second result is handled the queue already holds an entry
with that identifier and address; `Update` appends it all the same, raises
no error and the queue grows to two. -/
theorem update_appends_duplicate :
    processAddURL sampleParse 1 [] "https://youtu.be/abc"
        (constWorld (.getFails "offline") 0 100) = some (.addVideo firstAbc none) ∧
    processAddURL sampleParse 1 [] "https://youtu.be/abc"
        (constWorld (.getFails "offline") 1 101) = some (.addVideo secondAbc none) ∧
    (Update plainWidgets (quietEnv 0) (browsing []) (.addVideo firstAbc none)).map
        (fun out => out.model) = some (browsing [firstAbc]) ∧
    secondAbc.ID = firstAbc.ID ∧ secondAbc.URL = firstAbc.URL ∧
    (Update plainWidgets (quietEnv 0) (browsing [firstAbc]) (.addVideo secondAbc none)).map
        (fun out => (out.model.err, out.model.entries))
      = some (none, [secondAbc, firstAbc]) := by
  decide

/-- C1, amended: the duplicate check is the one made by the command of
`processAddURL`, over the slice its closure captured.  For every address
from which `extractYoutubeID` derives an identifier, and every captured
slice holding an entry with that identifier or that raw address, the
command yields an `addVideoMsg` with a duplicate-entry error naming such an
entry; and `Update`, handling that message in whatever state the session
is by then, stores the error as the notice and leaves `m.entries` as it
is. -/
theorem duplicate_rejected_by_command {L T : Type} (W : Widgets L T)
    (urlParse : String → Except String URL) (attempts : Nat) (env : Env)
    (captured : List VideoEntry) (m : Model L T)
    (rawURL : String) (w : World) (videoID : String)
    (hid : extractYoutubeID urlParse rawURL = .ok videoID)
    (hdup : ∃ e ∈ captured, e.ID = videoID ∨ e.URL = rawURL) :
    ∃ e ∈ captured, (e.ID = videoID ∨ e.URL = rawURL) ∧
      ∃ entry,
        processAddURL urlParse attempts captured rawURL w =
          some (.addVideo entry (some ("duplicate entry: " ++ e.VideoTitle))) ∧
        Update W env m (.addVideo entry (some ("duplicate entry: " ++ e.VideoTitle))) =
          some ⟨{ m with err := some ("duplicate entry: " ++ e.VideoTitle) }, .nil, none,
            none⟩ := by
  obtain ⟨e, he, hp, hf⟩ := findDuplicate_some hdup
  refine ⟨e, he, hp, ⟨"", "", "", "", 0⟩, ?_, rfl⟩
  unfold processAddURL
  simp only [hid, hf]

/-- C1, amended, at a concrete input: the captured slice holds the video
submitted again, while the session has moved on to another queue. -/
theorem duplicate_rejected_by_command_witness :
    extractYoutubeID sampleParse "https://youtu.be/abc" = .ok "abc" ∧
    ∃ e ∈ [firstAbc],
      (e.ID = "abc" ∨ e.URL = "https://youtu.be/abc") ∧
      ∃ entry,
        processAddURL sampleParse 1 [firstAbc]
            "https://youtu.be/abc" (constWorld (.getFails "offline") 0 200) =
          some (.addVideo entry (some ("duplicate entry: " ++ e.VideoTitle))) ∧
        Update plainWidgets (quietEnv 0) (browsing [entryC, firstAbc])
            (.addVideo entry (some ("duplicate entry: " ++ e.VideoTitle))) =
          some ⟨{ browsing [entryC, firstAbc] with
                  err := some ("duplicate entry: " ++ e.VideoTitle) }, .nil, none, none⟩ :=
  ⟨by decide,
   duplicate_rejected_by_command plainWidgets sampleParse 1 (quietEnv 0)
     [firstAbc] (browsing [entryC, firstAbc])
     "https://youtu.be/abc" (constWorld (.getFails "offline") 0 200) "abc" (by decide)
     ⟨_, List.mem_singleton.mpr rfl, Or.inl rfl⟩⟩

/-! ## Title lookup -/

/-- The lookups that `getYoutubeTitle` reports as an error: the request
fails, the body cannot be read, or the body does not decode. -/
theorem getYoutubeTitle_error_iff (httpGet : String → TitleResponse) (videoID err : String) :
    getYoutubeTitle httpGet videoID = .error err ↔
      httpGet (oembedURL videoID) = .getFails err ∨
      httpGet (oembedURL videoID) = .readFails err ∨
      httpGet (oembedURL videoID) = .body (.invalid err) := by
  unfold getYoutubeTitle
  cases h : httpGet (oembedURL videoID) with
  | getFails e => simp
  | readFails e => simp
  | body d =>
    cases d with
    | invalid e => simp
    | object t => simp

/-- On every lookup that `getYoutubeTitle` reports as an error the title
of the new entry is the raw URL. -/
theorem titleOrURL_on_error (httpGet : String → TitleResponse) (videoID rawURL err : String)
    (h : getYoutubeTitle httpGet videoID = .error err) :
    titleOrURL httpGet videoID rawURL = rawURL := by
  unfold titleOrURL
  rw [h]

/-- On a reported lookup error the add goes through with the raw URL as
title, in the session. -/
theorem processAddURL_title_fallback (urlParse : String → Except String URL)
    (attempts : Nat) (entries : List VideoEntry) (rawURL : String) (w : World)
    (videoID err shortID : String)
    (hid : extractYoutubeID urlParse rawURL = .ok videoID)
    (hnew : findDuplicate entries videoID rawURL = none)
    (hcode : generateShortID attempts entries w.rng = some shortID)
    (herr : getYoutubeTitle w.httpGet videoID = .error err) :
    processAddURL urlParse attempts entries rawURL w =
      some (.addVideo ⟨videoID, shortID, rawURL, rawURL, w.now⟩ none) := by
  unfold processAddURL
  simp only [hid, hnew, hcode, titleOrURL_on_error _ _ _ _ herr]

/-- C8 at the failing input: the lookup answers with a JSON object that has
no `title` field.  `getYoutubeTitle` reports no error, so both add paths
create the entry with an empty title instead of the raw URL. -/
theorem missing_title_gives_empty_title :
    getYoutubeTitle (constWorld (.body (.object none)) 0 1700000000).httpGet "abc" = .ok "" ∧
    processAddURL sampleParse 1 [] "https://youtu.be/abc"
        (constWorld (.body (.object none)) 0 1700000000) =
      some (.addVideo ⟨"abc", "aaaaaa", "https://youtu.be/abc", "", 1700000000⟩ none) ∧
    runAddVideo insertionSorter sampleParse ⟨none, .missing⟩ none 1 "https://youtu.be/abc"
        (constWorld (.body (.object none)) 0 1700000000) =
      some (.done "Added video: " none
        [⟨"abc", "aaaaaa", "https://youtu.be/abc", "", 1700000000⟩]) := by
  decide

/-! ## Random consume and removal by short code -/

theorem strictlyDescending_of_sublist {l l2 : List VideoEntry} (h : StrictlyDescending l)
    (hs : l2.Sublist l) : StrictlyDescending l2 := by
  have hp := (strictlyDescending_pairwise h).sublist hs
  unfold StrictlyDescending
  haveI : IsTrans VideoEntry (fun a b => a.Timestamp > b.Timestamp) :=
    ⟨fun a b c hab hbc => lt_trans hbc hab⟩
  exact List.chain'_iff_pairwise.mpr hp

theorem update_r_nonempty {L T : Type} (W : Widgets L T) (env : Env) (m : Model L T)
    (herr : m.err = none) (hfilter : W.filtering m.list = false) (hstate : m.state = 0)
    (hlen : m.entries.length ≠ 0) :
    Update W env m (.key "r") =
      some ⟨{ m with
              entries := env.sorter.sort (removeAt m.entries (env.draw % m.entries.length)),
              list := W.setItems m.list
                (env.sorter.sort (removeAt m.entries (env.draw % m.entries.length))) },
            .nil,
            some (m.entries.get ⟨env.draw % m.entries.length,
              Nat.mod_lt _ (Nat.pos_of_ne_zero hlen)⟩).URL,
            some (env.sorter.sort (removeAt m.entries (env.draw % m.entries.length)))⟩ := by
  unfold Update
  simp [herr, hfilter, hstate, hlen, saveDB]

/-- While the list is in filtering mode every key goes to the list widget:
the notice, the queue, the mode and the input buffer stay as they are,
nothing is opened and nothing is saved. -/
theorem key_while_filtering {L T : Type} (W : Widgets L T) (env : Env) (m : Model L T)
    (k : String) (herr : m.err = none) (hfilter : W.filtering m.list = true) :
    Update W env m (.key k) =
      some ⟨{ m with list := (W.listUpdate m.list (.key k)).1 },
        (W.listUpdate m.list (.key k)).2, none, none⟩ := by
  unfold Update
  simp [herr, hfilter]

/-- C3, as the code falsifies it: `r` pressed while browsing with no notice
but with the list in filtering mode is handed to the filter.  On an empty
queue no error is raised; on a queue of two nothing is opened and both
entries stay. -/
theorem r_while_filtering_consumes_nothing :
    (filteringSession []).state = 0 ∧ (filteringSession []).err = none ∧
    Update plainWidgets (quietEnv 0) (filteringSession []) (.key "r") =
      some ⟨filteringSession [], .nil, none, none⟩ ∧
    Update plainWidgets (quietEnv 0) (filteringSession [entryC, entryA]) (.key "r") =
      some ⟨filteringSession [entryC, entryA], .nil, none, none⟩ := by
  decide

/-- C3, amended: random consume, in the session (`r` while browsing, no
notice, list not filtering) and on the command line (`runRandomVideo`).  On
an empty queue it fails with the no-videos error and touches nothing.  On a
queue of size `N > 0`, for every drawn index `idx < N`, the entry at `idx`
is the one handed to the opener, and the resulting queue has `N - 1`
entries: the original ones with the occurrence at `idx` removed. -/
theorem random_consume {L T : Type} (W : Widgets L T) (env : Env) (m : Model L T)
    (d : Disk) (idx : Nat) :
    (m.err = none → W.filtering m.list = false → m.state = 0 → m.entries = [] →
      Update W env m (.key "r") =
        some ⟨{ m with err := some "no videos available" }, .nil, none, none⟩) ∧
    (m.err = none → W.filtering m.list = false → m.state = 0 →
      idx < m.entries.length → env.draw % m.entries.length = idx →
      ∃ out entry, Update W env m (.key "r") = some out ∧
        m.entries.get? idx = some entry ∧
        out.opened = some entry.URL ∧
        out.model.entries.length = m.entries.length - 1 ∧
        out.model.entries.Perm (m.entries.eraseIdx idx) ∧
        (StrictlyDescending m.entries → out.model.entries = m.entries.eraseIdx idx)) ∧
    (loadDB env.sorter d = .ok [] →
      runRandomVideo env.sorter d env.writeErr env.draw = .exit 1 "No videos available.") ∧
    (∀ entries, loadDB env.sorter d = .ok entries →
      idx < entries.length → env.draw % entries.length = idx →
      ∃ entry saved, entries.get? idx = some entry ∧
        runRandomVideo env.sorter d env.writeErr env.draw =
          .done "" (some entry.URL) saved ∧
        saved.length = entries.length - 1 ∧
        saved.Perm (entries.eraseIdx idx)) := by
  refine ⟨?_, ?_, ?_, ?_⟩
  · intro herr hfilter hstate hempty
    unfold Update
    simp [herr, hfilter, hstate, hempty]
  · intro herr hfilter hstate hidx hdraw
    have hlen : m.entries.length ≠ 0 := by omega
    refine ⟨_, m.entries.get ⟨idx, hidx⟩, update_r_nonempty W env m herr hfilter hstate hlen,
      ?_, ?_, ?_, ?_, ?_⟩
    · exact List.get?_eq_get hidx
    · simp only [hdraw]
    · simp only [hdraw, sort_length, removeAt_eq_eraseIdx, List.length_eraseIdx, hidx,
        if_true]
    · simp only [hdraw, removeAt_eq_eraseIdx]
      exact env.sorter.perm _
    · intro hs
      simp only [hdraw, removeAt_eq_eraseIdx]
      exact sort_eq_self_of_strict env.sorter
        (strictlyDescending_of_sublist hs (List.eraseIdx_sublist _ _))
  · intro hload
    unfold runRandomVideo
    simp [hload]
  · intro entries hload hidx hdraw
    have hlen : entries.length ≠ 0 := by omega
    refine ⟨entries.get ⟨idx, hidx⟩, env.sorter.sort (entries.eraseIdx idx),
      List.get?_eq_get hidx, ?_, ?_, env.sorter.perm _⟩
    · unfold runRandomVideo
      simp [hload, hlen, hdraw, saveDB, removeAt_eq_eraseIdx]
    · simp only [sort_length, List.length_eraseIdx, hidx, if_true]

/-- C3, amended, at concrete inputs: `r` on an empty and on a three-entry queue with
the draw landing on index 1, and the command-line path on a missing and on
a three-entry store. -/
theorem random_consume_witness :
    Update plainWidgets (quietEnv 4) (browsing []) (.key "r") =
      some ⟨{ browsing [] with err := some "no videos available" }, .nil, none, none⟩ ∧
    (∃ out entry, Update plainWidgets (quietEnv 4) (browsing [entryC, entryA, entryB])
        (.key "r") = some out ∧
      (browsing [entryC, entryA, entryB]).entries.get? 1 = some entry ∧
      out.opened = some entry.URL ∧
      out.model.entries.length = (browsing [entryC, entryA, entryB]).entries.length - 1 ∧
      out.model.entries.Perm ((browsing [entryC, entryA, entryB]).entries.eraseIdx 1) ∧
      (StrictlyDescending (browsing [entryC, entryA, entryB]).entries →
        out.model.entries = (browsing [entryC, entryA, entryB]).entries.eraseIdx 1)) ∧
    runRandomVideo insertionSorter ⟨none, .missing⟩ none 4 = .exit 1 "No videos available." ∧
    (∃ entry saved, [entryC, entryA, entryB].get? 1 = some entry ∧
      runRandomVideo insertionSorter ⟨none, .holds (.ok [entryC, entryA, entryB])⟩ none 4 =
        .done "" (some entry.URL) saved ∧
      saved.length = [entryC, entryA, entryB].length - 1 ∧
      saved.Perm ([entryC, entryA, entryB].eraseIdx 1)) :=
  ⟨(random_consume plainWidgets (quietEnv 4) (browsing []) ⟨none, .missing⟩ 0).1
      rfl rfl rfl rfl,
   (random_consume plainWidgets (quietEnv 4) (browsing [entryC, entryA, entryB])
      ⟨none, .missing⟩ 1).2.1 rfl rfl rfl (by decide) (by decide),
   (random_consume plainWidgets (quietEnv 4) (browsing []) ⟨none, .missing⟩ 0).2.2.1
      (by decide),
   (random_consume plainWidgets (quietEnv 4) (browsing [])
      ⟨none, .holds (.ok [entryC, entryA, entryB])⟩ 1).2.2.2 [entryC, entryA, entryB]
      (by decide) (by decide) (by decide)⟩

theorem removeByShortID_of_nodup {entries : List VideoEntry} {e0 : VideoEntry}
    (hnodup : (entries.map (fun e => e.ShortID)).Nodup) (he0 : e0 ∈ entries) :
    removeByShortID entries e0.ShortID = entries.erase e0 := by
  have hnd : entries.Nodup := List.Nodup.of_map _ hnodup
  rw [hnd.erase_eq_filter]
  unfold removeByShortID
  apply List.filter_congr
  intro e he
  have hinj := List.inj_on_of_nodup_map hnodup
  by_cases h : e = e0
  · subst h
    rw [bne_self_eq_false, bne_self_eq_false]
  · have : e.ShortID ≠ e0.ShortID := fun hc => h (hinj he he0 hc)
    rw [bne_iff_ne.mpr this, bne_iff_ne.mpr h]

theorem update_remove_selected {L T : Type} (W : Widgets L T) (env : Env) (m : Model L T)
    (k : String) (selected : VideoEntry) (hk : k = "d" ∨ k = "enter")
    (herr : m.err = none) (hfilter : W.filtering m.list = false) (hstate : m.state = 0)
    (hsel : W.selectedItem m.list = some selected) (hne : m.entries ≠ []) :
    ∃ out, Update W env m (.key k) = some out ∧
      out.model.entries = env.sorter.sort (removeByShortID m.entries selected.ShortID) ∧
      out.opened = (if k = "enter" then some selected.URL else none) := by
  have hlen : m.entries.length ≠ 0 := fun h0 => hne (List.length_eq_zero.mp h0)
  refine ⟨⟨{ m with
      entries := env.sorter.sort (removeByShortID m.entries selected.ShortID),
      list := W.setItems m.list
        (env.sorter.sort (removeByShortID m.entries selected.ShortID)) },
    .nil, if k = "enter" then some selected.URL else none,
    some (env.sorter.sort (removeByShortID m.entries selected.ShortID))⟩, ?_, rfl, rfl⟩
  rcases hk with hd | he
  · subst hd
    unfold Update
    simp [herr, hfilter, hstate, hlen, saveDB, hsel, removeSelected]
  · subst he
    unfold Update
    simp [herr, hfilter, hstate, hlen, saveDB, hsel, removeSelected]

/-- C4, as the code falsifies it: when two entries carry the selected short
code the filter drops both, so the queue shrinks by two; and on an empty
queue with an item still selected in the list the handler panics instead
of leaving the queue unchanged. -/
theorem remove_drops_every_match :
    (Update plainWidgets (quietEnv 0)
        { browsing [entryC, entryA, entryA2] with
            list := ⟨[entryC, entryA, entryA2], 1, false⟩ } (.key "d")).map
      (fun out => out.model.entries) = some [entryC] ∧
    plainWidgets.selectedItem (⟨[entryC, entryA, entryA2], 1, false⟩ : PlainList)
      = some entryA ∧
    entryA2.ShortID = entryA.ShortID ∧
    Update plainWidgets (quietEnv 0) { browsing [] with list := ⟨[entryA], 0, false⟩ }
      (.key "d") = none := by
  decide

/-- C4, amended: removal by short code (`d` or `enter` while browsing, no
notice, list not filtering, an item selected).  On a queue whose short
codes are pairwise distinct and where some entry bears the selected code,
the resulting queue is exactly one entry shorter, holds no entry with that
code and keeps every other entry (and nothing else).  On a non-empty queue
where no entry bears the code, the queue keeps exactly its entries; it is
re-sorted by `saveDB`, which changes nothing when the timestamps are
strictly descending. -/
theorem remove_by_short_code {L T : Type} (W : Widgets L T) (env : Env) (m : Model L T)
    (k : String) (selected : VideoEntry) (hk : k = "d" ∨ k = "enter")
    (herr : m.err = none) (hfilter : W.filtering m.list = false) (hstate : m.state = 0)
    (hsel : W.selectedItem m.list = some selected) :
    ((m.entries.map (fun e => e.ShortID)).Nodup →
      (∃ e ∈ m.entries, e.ShortID = selected.ShortID) →
      ∃ out, Update W env m (.key k) = some out ∧
        out.model.entries.length + 1 = m.entries.length ∧
        (∀ e ∈ out.model.entries, e.ShortID ≠ selected.ShortID) ∧
        (∀ e ∈ m.entries, e.ShortID ≠ selected.ShortID → e ∈ out.model.entries) ∧
        (∀ e ∈ out.model.entries, e ∈ m.entries)) ∧
    (m.entries ≠ [] → (∀ e ∈ m.entries, e.ShortID ≠ selected.ShortID) →
      ∃ out, Update W env m (.key k) = some out ∧
        out.model.entries.Perm m.entries ∧
        (StrictlyDescending m.entries → out.model.entries = m.entries)) := by
  constructor
  · intro hnodup ⟨e0, he0, hcode⟩
    have hne : m.entries ≠ [] := List.ne_nil_of_mem he0
    obtain ⟨out, hout, hentries, _⟩ :=
      update_remove_selected W env m k selected hk herr hfilter hstate hsel hne
    have hfilterEq : removeByShortID m.entries selected.ShortID = m.entries.erase e0 := by
      rw [← hcode]; exact removeByShortID_of_nodup hnodup he0
    have hperm : out.model.entries.Perm (removeByShortID m.entries selected.ShortID) := by
      rw [hentries]; exact env.sorter.perm _
    have hmem : ∀ e, e ∈ out.model.entries ↔
        e ∈ m.entries ∧ e.ShortID ≠ selected.ShortID := by
      intro e
      rw [hperm.mem_iff]
      unfold removeByShortID
      simp [List.mem_filter]
    refine ⟨out, hout, ?_, ?_, ?_, ?_⟩
    · rw [hperm.length_eq, hfilterEq, List.length_erase_of_mem he0]
      have : 0 < m.entries.length := List.length_pos_of_mem he0
      omega
    · intro e he; exact ((hmem e).mp he).2
    · intro e he hc; exact (hmem e).mpr ⟨he, hc⟩
    · intro e he; exact ((hmem e).mp he).1
  · intro hne hnone
    obtain ⟨out, hout, hentries, _⟩ :=
      update_remove_selected W env m k selected hk herr hfilter hstate hsel hne
    have hsame : removeByShortID m.entries selected.ShortID = m.entries := by
      unfold removeByShortID
      apply List.filter_eq_self.mpr
      intro e he
      exact bne_iff_ne.mpr (hnone e he)
    rw [hsame] at hentries
    refine ⟨out, hout, ?_, ?_⟩
    · rw [hentries]; exact env.sorter.perm _
    · intro hs; rw [hentries]; exact sort_eq_self_of_strict env.sorter hs

/-- C4, amended, at concrete inputs: `enter` on the middle one of three
entries with distinct codes, and `d` with a selected item whose code no
entry bears. -/
theorem remove_by_short_code_witness :
    (∃ out, Update plainWidgets (quietEnv 0)
        { browsing [entryC, entryA, entryB] with
            list := ⟨[entryC, entryA, entryB], 1, false⟩ } (.key "enter") = some out ∧
      out.model.entries.length + 1 = 3 ∧
      (∀ e ∈ out.model.entries, e.ShortID ≠ entryA.ShortID) ∧
      (∀ e ∈ [entryC, entryA, entryB], e.ShortID ≠ entryA.ShortID →
        e ∈ out.model.entries) ∧
      (∀ e ∈ out.model.entries, e ∈ [entryC, entryA, entryB])) ∧
    (∃ out, Update plainWidgets (quietEnv 0)
        { browsing [entryC, entryB] with list := ⟨[entryA], 0, false⟩ } (.key "d")
          = some out ∧
      out.model.entries.Perm [entryC, entryB] ∧
      (StrictlyDescending [entryC, entryB] → out.model.entries = [entryC, entryB])) :=
  ⟨(remove_by_short_code plainWidgets (quietEnv 0)
      { browsing [entryC, entryA, entryB] with
          list := ⟨[entryC, entryA, entryB], 1, false⟩ } "enter" entryA
      (Or.inr rfl) rfl rfl rfl rfl).1 (by decide) ⟨entryA, by decide, rfl⟩,
   (remove_by_short_code plainWidgets (quietEnv 0)
      { browsing [entryC, entryB] with list := ⟨[entryA], 0, false⟩ } "d" entryA
      (Or.inl rfl) rfl rfl rfl rfl).2 (by decide) (by decide)⟩

/-! ## Sequences of adds -/

/-- The loop returns the code of the first pass that draws a code not in
use. -/
theorem generateShortIDLoop_firstFree (existing : List String) (rng : Nat → Nat) :
    ∀ (attempts pos t : Nat), t < attempts →
      drawShortID rng (pos + shortIDLength * t) ∉ existing →
      (∀ s, s < t → drawShortID rng (pos + shortIDLength * s) ∈ existing) →
      generateShortIDLoop existing rng attempts pos =
        some (drawShortID rng (pos + shortIDLength * t)) := by
  intro attempts
  induction attempts with
  | zero => intro pos t ht; omega
  | succ n ih =>
    intro pos t ht hfree hfirst
    simp only [generateShortIDLoop]
    split
    · rename_i hused
      cases t with
      | zero => simp at hfree; exact absurd hused hfree
      | succ t =>
        have e : ∀ s, pos + shortIDLength + shortIDLength * s
            = pos + shortIDLength * (s + 1) := by intro s; ring
        have := ih (pos + shortIDLength) t (by omega) (by rw [e]; exact hfree)
          (by intro s hs; rw [e]; exact hfirst (s + 1) (by omega))
        rw [this, e]
    · rename_i hunused
      cases t with
      | zero => simp
      | succ t =>
        have := hfirst 0 (by omega)
        simp at this
        exact absurd this hunused

/-- The loop never returns when every pass draws a code in use. -/
theorem generateShortIDLoop_stuck (existing : List String) (rng : Nat → Nat)
    (h : ∀ p, drawShortID rng p ∈ existing) :
    ∀ (attempts pos : Nat), generateShortIDLoop existing rng attempts pos = none := by
  intro attempts
  induction attempts with
  | zero => intro pos; rfl
  | succ n ih =>
    intro pos
    simp only [generateShortIDLoop, h pos, if_true]
    exact ih _

/-- One add of an address that yields the identifier `videoID` and matches
no entry, when pass `t` is the first to draw a code not in use: the step
completes, and the new queue is the old one plus one entry with that
identifier, that address and that code. -/
theorem addStep_completes {L T : Type} (W : Widgets L T)
    (urlParse : String → Except String URL) (attempts : Nat) (m : Model L T)
    (req : Env × String × World) (videoID : String) (t : Nat)
    (hid : extractYoutubeID urlParse req.2.1 = .ok videoID)
    (hnew : findDuplicate m.entries videoID req.2.1 = none)
    (ht : t < attempts)
    (hfree : drawShortID req.2.2.rng (shortIDLength * t) ∉
      m.entries.map (fun e => e.ShortID))
    (hfirst : ∀ s, s < t → drawShortID req.2.2.rng (shortIDLength * s) ∈
      m.entries.map (fun e => e.ShortID)) :
    ∃ m1 title, addStep W urlParse attempts m req = some m1 ∧
      m1.entries.Perm (m.entries ++
        [⟨videoID, drawShortID req.2.2.rng (shortIDLength * t), req.2.1, title,
          req.2.2.now⟩]) := by
  have hgen : generateShortID attempts m.entries req.2.2.rng =
      some (drawShortID req.2.2.rng (shortIDLength * t)) := by
    have := generateShortIDLoop_firstFree (m.entries.map (fun e => e.ShortID)) req.2.2.rng
      attempts 0 t ht (by rw [Nat.zero_add]; exact hfree)
      (by intro s hs; rw [Nat.zero_add]; exact hfirst s hs)
    rw [Nat.zero_add] at this
    exact this
  unfold addStep processAddURL
  simp only [hid, hnew, hgen, Update, saveDB]
  exact ⟨_, _, rfl, req.1.sorter.perm _⟩

theorem runAdds_completes {L T : Type} (W : Widgets L T)
    (urlParse : String → Except String URL) (attempts : Nat) :
    ∀ (reqs : List (Env × String × World)) (ids used : List String) (m : Model L T),
      reqs.map (fun r => extractYoutubeID urlParse r.2.1) = ids.map Except.ok →
      ids.Nodup →
      (∀ e ∈ m.entries, e.ID ∉ ids) →
      (∀ e ∈ m.entries, ∀ r ∈ reqs, e.URL ≠ r.2.1) →
      (m.entries.map (fun e => e.ShortID)).Nodup →
      (∀ c, c ∈ m.entries.map (fun e => e.ShortID) ↔ c ∈ used) →
      FreshDraws attempts used reqs →
      ∃ m2, runAdds W urlParse attempts m reqs = some m2 ∧
        m2.entries.length = m.entries.length + reqs.length ∧
        (m2.entries.map (fun e => e.ShortID)).Nodup := by
  intro reqs
  induction reqs with
  | nil =>
    intro ids used m _ _ _ _ hcodes _ _
    exact ⟨m, rfl, by simp, hcodes⟩
  | cons req rest ih =>
    intro ids used m hids hnodup hidfresh hurlfresh hcodes hused hdraws
    cases ids with
    | nil => simp at hids
    | cons id0 ids1 =>
      simp only [List.map_cons, List.cons.injEq] at hids
      obtain ⟨hid0, hrest⟩ := hids
      have hnd := List.nodup_cons.mp hnodup
      obtain ⟨t, ht, hfree, hfirst, hdraws1⟩ := hdraws
      have hnew : findDuplicate m.entries id0 req.2.1 = none := by
        apply findDuplicate_none
        intro e he
        exact ⟨fun hc => hidfresh e he (by rw [hc]; exact List.mem_cons_self _ _),
               hurlfresh e he req (List.mem_cons_self _ _)⟩
      obtain ⟨m1, title, hstep, hperm⟩ :=
        addStep_completes W urlParse attempts m req id0 t hid0 hnew ht
          (fun hc => hfree ((hused _).mp hc))
          (fun s hs => (hused _).mpr (hfirst s hs))
      have hmem1 : ∀ e, e ∈ m1.entries ↔ e ∈ m.entries ∨
          e = ⟨id0, drawShortID req.2.2.rng (shortIDLength * t), req.2.1, title,
            req.2.2.now⟩ := by
        intro e; rw [hperm.mem_iff]; simp
      have hrestid : ∀ r ∈ rest, ∃ id ∈ ids1,
          extractYoutubeID urlParse r.2.1 = .ok id := by
        intro r hr
        have : extractYoutubeID urlParse r.2.1 ∈ ids1.map Except.ok := by
          rw [← hrest]; exact List.mem_map.mpr ⟨r, hr, rfl⟩
        obtain ⟨id, hidm, hideq⟩ := List.mem_map.mp this
        exact ⟨id, hidm, hideq.symm⟩
      have h1 : ∀ e ∈ m1.entries, e.ID ∉ ids1 := by
        intro e he
        rcases (hmem1 e).mp he with hold | hnewe
        · exact fun hc => hidfresh e hold (List.mem_cons_of_mem _ hc)
        · subst hnewe; exact hnd.1
      have h2 : ∀ e ∈ m1.entries, ∀ r ∈ rest, e.URL ≠ r.2.1 := by
        intro e he r hr
        rcases (hmem1 e).mp he with hold | hnewe
        · exact hurlfresh e hold r (List.mem_cons_of_mem _ hr)
        · subst hnewe
          intro hc
          obtain ⟨id, hidm, hideq⟩ := hrestid r hr
          simp only at hc
          rw [← hc, hid0] at hideq
          injection hideq with hideq
          exact hnd.1 (by rw [hideq]; exact hidm)
      have hp2 := hperm.map (fun e => e.ShortID)
      have h3 : (m1.entries.map (fun e => e.ShortID)).Nodup := by
        rw [hp2.nodup_iff]
        simp only [List.map_append, List.map_cons, List.map_nil]
        rw [List.nodup_append]
        refine ⟨hcodes, List.nodup_singleton _, ?_⟩
        intro a ha hb
        rw [List.mem_singleton] at hb
        subst hb
        exact hfree ((hused _).mp ha)
      have h4 : ∀ c, c ∈ m1.entries.map (fun e => e.ShortID) ↔
          c ∈ drawShortID req.2.2.rng (shortIDLength * t) :: used := by
        intro c
        rw [hp2.mem_iff]
        simp only [List.map_append, List.map_cons, List.map_nil, List.mem_append,
          List.mem_singleton, List.mem_cons, List.not_mem_nil, or_false]
        rw [hused c]
        exact Or.comm
      obtain ⟨m2, hrun, hlen, hres⟩ := ih ids1 _ m1 hrest hnd.2 h1 h2 h3 h4 hdraws1
      refine ⟨m2, ?_, ?_, hres⟩
      · simp only [runAdds, hstep]
        exact hrun
      · rw [hlen, hperm.length_eq]
        simp
        omega

/-- With a random source that draws the same code in every pass, the second
of two adds never completes, however many passes are allowed. -/
theorem stuckAdds_never_complete (attempts : Nat) :
    runAdds plainWidgets sampleParse attempts (browsing []) stuckAdds = none := by
  cases attempts with
  | zero => decide
  | succ n =>
    have h1 : addStep plainWidgets sampleParse (n + 1) (browsing [])
        (quietEnv 0, "https://youtu.be/abc", constWorld (.getFails "offline") 0 100)
        = some (browsing [firstAbc]) := by
      have hext : extractYoutubeID sampleParse "https://youtu.be/abc" = .ok "abc" := by
        decide
      have hgen : generateShortID (n + 1) [] (fun _ => 0) = some "aaaaaa" := by
        simp only [generateShortID, generateShortIDLoop, List.map_nil, List.not_mem_nil,
          if_false]
        decide
      simp only [addStep, processAddURL, hext, constWorld, browsing, findDuplicate,
        List.find?_nil, hgen]
      decide
    have h2 : addStep plainWidgets sampleParse (n + 1) (browsing [firstAbc])
        (quietEnv 0, "https://youtu.be/xyz", constWorld (.getFails "offline") 0 200)
        = none := by
      have hext : extractYoutubeID sampleParse "https://youtu.be/xyz" = .ok "xyz" := by
        decide
      have hdup : findDuplicate [firstAbc] "xyz" "https://youtu.be/xyz" = none := by
        decide
      have hall : ∀ p, drawShortID (fun _ => 0) p ∈ [firstAbc].map (fun e => e.ShortID) := by
        intro p
        have : drawShortID (fun _ => 0) p = "aaaaaa" := by
          simp only [drawShortID]
          decide
        rw [this]; decide
      have hgen : generateShortID (n + 1) [firstAbc] (fun _ => 0) = none :=
        generateShortIDLoop_stuck _ _ hall _ _
      simp only [addStep, processAddURL, hext, constWorld, browsing, hdup, hgen]
    simp only [stuckAdds, runAdds, h1, h2]

/-- C5, as the code falsifies it: two adds whose (ID, URL) pairs differ as
pairs, because the same video is submitted under two addresses; the random
source gives each a code of its own.  The second add is rejected as a
duplicate and the queue ends with one entry.  Separately, two adds for two
different videos never produce a two-entry queue when the random source
keeps drawing the code already given out: the retry loop of the second add
has no exit, however many passes are allowed. -/
theorem same_video_two_addresses :
    clashingAdds.length = 2 ∧
    (clashingAdds.map (fun r => (extractYoutubeID sampleParse r.2.1, r.2.1))).Nodup ∧
    clashingAdds.map (fun r => extractYoutubeID sampleParse r.2.1)
      = [.ok "abc", .ok "abc"] ∧
    (runAdds plainWidgets sampleParse 1 (browsing []) clashingAdds).map
        (fun m => (m.entries.length, m.err))
      = some (1, some "duplicate entry: https://youtu.be/abc") ∧
    stuckAdds.map (fun r => extractYoutubeID sampleParse r.2.1)
      = [.ok "abc", .ok "xyz"] ∧
    (∀ attempts, runAdds plainWidgets sampleParse attempts (browsing []) stuckAdds = none) :=
  ⟨by decide, by decide, by decide, by decide, by decide, stuckAdds_never_complete⟩

/-- C5, amended: for every sequence of adds, starting from an empty queue,
whose addresses yield pairwise distinct identifiers (their addresses are
then distinct too), and in which the short-code loop of every add draws,
within the passes it is allowed, a code not given to an earlier add of the
sequence, the sequence runs to the end, the resulting queue has exactly as
many entries as there were adds, and their short codes are pairwise
distinct. -/
theorem adds_with_distinct_ids {L T : Type} (W : Widgets L T)
    (urlParse : String → Except String URL) (attempts : Nat)
    (m0 : Model L T) (reqs : List (Env × String × World)) (ids : List String)
    (hempty : m0.entries = [])
    (hids : reqs.map (fun r => extractYoutubeID urlParse r.2.1) = ids.map Except.ok)
    (hdistinct : ids.Nodup)
    (hdraws : FreshDraws attempts [] reqs) :
    ∃ m2, runAdds W urlParse attempts m0 reqs = some m2 ∧
      m2.entries.length = reqs.length ∧
      (m2.entries.map (fun e => e.ShortID)).Nodup := by
  have h := runAdds_completes W urlParse attempts reqs ids [] m0 hids hdistinct
    (by rw [hempty]; intro e he; cases he)
    (by rw [hempty]; intro e he; cases he)
    (by rw [hempty]; exact List.nodup_nil)
    (by rw [hempty]; intro c; simp)
    hdraws
  rw [hempty] at h
  simpa using h

/-- C5, amended, at a concrete input: two videos added one after the other;
the second add draws the code in use first and a fresh one in its second
pass. -/
theorem adds_with_distinct_ids_witness :
    distinctAdds.map (fun r => extractYoutubeID sampleParse r.2.1)
      = ["abc", "xyz"].map Except.ok ∧
    FreshDraws 2 [] distinctAdds ∧
    runAdds plainWidgets sampleParse 2 (browsing []) distinctAdds =
      some (browsing
        [⟨"xyz", "bbbbbb", "https://youtu.be/xyz", "https://youtu.be/xyz", 200⟩,
         ⟨"abc", "aaaaaa", "https://youtu.be/abc", "https://youtu.be/abc", 100⟩]) ∧
    ∃ m2, runAdds plainWidgets sampleParse 2 (browsing []) distinctAdds = some m2 ∧
      m2.entries.length = distinctAdds.length ∧
      (m2.entries.map (fun e => e.ShortID)).Nodup :=
  have hdraws : FreshDraws 2 [] distinctAdds :=
    ⟨0, by decide, by decide, fun s hs => absurd hs (Nat.not_lt_zero s),
     1, by decide, by decide,
     fun s hs => by
       have h0 : s = 0 := by omega
       subst h0
       decide,
     trivial⟩
  ⟨by decide, hdraws, by decide,
   adds_with_distinct_ids plainWidgets sampleParse 2 (browsing []) distinctAdds
     ["abc", "xyz"] rfl (by decide) (by decide) hdraws⟩

end Ytr
